import Mathlib

/-!
Verification of the Doc-Researcher repository against its natural-language
specification.

The repository snapshot contains the front-end (`frontend/src/App.jsx`,
`frontend/src/components/QueryPanel.jsx`), the meme-generator demo server
(`meme-generator/backend/models/Meme.js`, demo server section) and
documentation / launch scripts.  The Python back-end implementing the
iterative research controller (`doc_researcher_with_llm.py`,
`llm_client.py`, `backend/app.py`) is referenced by the scripts and
documentation but its code is not part of the snapshot; those components
are modelled from the specification text (sections 3, 4, 6, 7 of the spec)
and each such definition carries a doc comment saying so.

Design of the embedding:
* floats (relevance scores, sufficiency scores, thresholds) are modelled
  as rationals;
* the content hash used in the evidence identity key is modelled as the
  content itself (an ideal, collision-free hash), so the identity key of
  an evidence item is the pair (source_id, content);
* the language-model gateway is modelled as an oracle: an arbitrary
  assignment of replies (success / transport failure after retries /
  malformed output) to each call site, universally quantified in the
  theorems;
* JavaScript objects (meme records, request bodies) are modelled as
  association lists where the last binding of a key wins, matching the
  semantics of object literals with spreads.
-/

namespace DocResearcher

/-- Modelled from the spec: an `EvidenceItem` (spec section 3) — a retrieved
snippet with `content`, a weak `source_id` back-reference, a `relevance`
score in [0,1] and a `granularity` tag. -/
structure EvidenceItem where
  content : String
  source_id : String
  relevance : ℚ
  granularity : String
deriving DecidableEq

/-- Modelled from the spec: the identity key of an evidence item is the pair
(source_id, content-hash); the hash is modelled as the content itself. -/
def key (e : EvidenceItem) : String × String := (e.source_id, e.content)

/-- Modelled from the spec: one step of `EvidenceRefiner.merge`
(spec section 4.3) — for a new item, compute its identity key; if absent,
insert; if present with lower incumbent relevance, replace the incumbent;
if the incumbent's relevance is equal or higher, discard the new item. -/
def mergeOne (s : List EvidenceItem) (x : EvidenceItem) : List EvidenceItem :=
  match s.find? (fun e => key e = key x) with
  | none => s ++ [x]
  | some inc =>
      if inc.relevance < x.relevance then
        s.map (fun e => if key e = key x then x else e)
      else s

/-- Modelled from the spec: `EvidenceRefiner.merge` (spec section 4.3),
folding `mergeOne` over the new items in order. -/
def merge (s : List EvidenceItem) (newItems : List EvidenceItem) : List EvidenceItem :=
  newItems.foldl mergeOne s

/-- Well-formedness of an evidence set: identity keys are pairwise distinct
(the spec calls an `EvidenceSet` a collection of unique evidence items). -/
def WFEvidence (s : List EvidenceItem) : Prop := (s.map key).Nodup

/-- Modelled from the spec: session configuration surface (spec section 6) —
`max_iterations`, `sufficiency_threshold` and `max_subqueries_per_iteration`,
fixed for a whole session. -/
structure Config where
  max_iterations : Nat
  sufficiency_threshold : ℚ
  max_subqueries : Nat

/-- Modelled from the spec and the repository documentation: the intent
classification of a query, with the field names used by
`analyze_query_intent` in the documented API of `llm_client.py`. -/
structure Intent where
  intent_type : String
  granularity : String
  complexity : String
  needs_multi_doc : Bool
deriving DecidableEq

/-- Modelled from the spec: the outcome of one gateway call after the retry
policy has run — success, transport failure after exhausted retries, or
malformed (structured extraction failed) output (spec section 4.1). -/
inductive GReply (α : Type) where
  | ok : α → GReply α
  | transportFailed : GReply α
  | malformed : GReply α

/-- Modelled from the spec: the behaviour of the language-model gateway and
the external evidence retriever over a whole session, one reply per call
site; quantifying over all oracles covers every model-side failure mode. -/
structure Oracle where
  intentReply : GReply Intent
  decomposeReply : Nat → GReply (List String)
  retrieve : Nat → String → Option (List EvidenceItem)
  evalReply : Nat → GReply ℚ
  synthReply : GReply String

/-- Modelled from the spec: the conservative default intent used when intent
classification fails (spec section 4.2). -/
def defaultIntent : Intent := ⟨"other", "document", "medium", true⟩

/-- Modelled from the spec: `classify_intent` (spec section 4.2) — a single
gateway call; any gateway failure is absorbed into the default intent. -/
def classifyIntent (r : GReply Intent) : Intent :=
  match r with
  | .ok i => i
  | _ => defaultIntent

/-- Modelled from the spec: case-insensitive deduplication of sub-queries
(spec section 4.2), keeping the first occurrence. -/
def dedupCaseInsensitive (l : List String) : List String :=
  l.foldl (fun acc q =>
    if acc.any (fun a => a.toLower = q.toLower) then acc else acc ++ [q]) []

/-- Modelled from the spec: `decompose` (spec section 4.2) — requests up to
`maxSub` sub-queries; empty strings are dropped and duplicates removed; on a
gateway failure or an empty result the original query is the sole sub-query. -/
def decompose (query : String) (_intent : Intent) (maxSub : Nat)
    (r : GReply (List String)) : List String :=
  match r with
  | .ok subs =>
      let cleaned := (dedupCaseInsensitive (subs.filter (fun q => q ≠ ""))).take maxSub
      if cleaned = [] then [query] else cleaned
  | _ => [query]

/-- Modelled from the spec: the `RETRIEVING` stage (spec section 4.6, step 3)
— every sub-query is sent to the external retriever; a failed retrieval
contributes zero evidence items and is non-fatal. -/
def retrieveAll (ora : Oracle) (it : Nat) (subs : List String) : List EvidenceItem :=
  subs.foldl (fun acc sq => acc ++ ((ora.retrieve it sq).getD [])) []

/-- Modelled from the spec: `SufficiencyEvaluator.score` (spec section 4.4)
— one gateway call; malformed output, transport failure or an out-of-range
value clamps to 0 (treated as insufficient). -/
def clampScore (r : GReply ℚ) : ℚ :=
  match r with
  | .ok q => if 0 ≤ q ∧ q ≤ 1 then q else 0
  | _ => 0

/-- One gateway invocation, recorded so that theorems can speak about which
calls a session makes. -/
inductive GCall where
  | classify : GCall
  | decompose : Nat → GCall
  | evaluate : Nat → GCall
  | synthesizeCall : GCall
deriving DecidableEq

/-- Modelled from the spec: the final `Report` (spec section 3) — synthesized
text, the evidence set it was grounded in, and the iteration count consumed. -/
structure Report where
  body : String
  evidence : List EvidenceItem
  iterations : Nat

/-- Modelled from the spec: the deterministic fallback body of a degraded
report, enumerating the evidence sources gathered (spec section 4.5). -/
def degradedBody (ev : List EvidenceItem) : String :=
  "[degraded report] sources: " ++
    String.intercalate ", " (ev.map (fun e => e.source_id))

/-- Modelled from the spec: `ReportSynthesizer.synthesize` (spec section 4.5)
— one gateway call with evidence and conversation history as context; on
gateway failure or empty output it returns the degraded report, never
nothing. -/
def synthesize (ev : List EvidenceItem) (_hist : List (String × Report))
    (r : GReply String) (iters : Nat) : Report :=
  match r with
  | .ok t => if t = "" then ⟨degradedBody ev, ev, iters⟩ else ⟨t, ev, iters⟩
  | _ => ⟨degradedBody ev, ev, iters⟩

/-- The observable outcome of the iteration loop: final evidence set, number
of completed PLANNING→EVALUATING cycles, gateway calls made. -/
structure LoopOut where
  evidence : List EvidenceItem
  iterations : Nat
  trace : List GCall

/-- Modelled from the spec: the `ResearchController` iteration loop
(spec section 4.6) — each cycle plans sub-queries, retrieves, merges the
delta, evaluates sufficiency, increments the iteration counter, and
continues to another `PLANNING` stage iff the score is strictly below the
threshold and the counter is strictly below `max_iterations`.  The fuel
argument equals `max_iterations - it`; it bounds the recursion and never
cuts a cycle short. -/
def loopGo (cfg : Config) (ora : Oracle) (query : String) (intent : Intent) :
    Nat → Nat → List EvidenceItem → List GCall → LoopOut
  | 0, it, ev, tr => ⟨ev, it, tr⟩
  | fuel + 1, it, ev, tr =>
      let subs := decompose query intent cfg.max_subqueries (ora.decomposeReply it)
      let delta := retrieveAll ora it subs
      let ev' := merge ev delta
      let sc := clampScore (ora.evalReply it)
      let tr' := tr ++ [GCall.decompose it, GCall.evaluate it]
      if sc < cfg.sufficiency_threshold ∧ it + 1 < cfg.max_iterations then
        loopGo cfg ora query intent fuel (it + 1) ev' tr'
      else ⟨ev', it + 1, tr'⟩

/-- Modelled from the spec: one research session after construction —
classify the intent once, run the iteration loop starting from an empty
evidence set and iteration 0, then synthesize exactly one report
(spec section 4.6). -/
def runSession (cfg : Config) (query : String) (hist : List (String × Report))
    (ora : Oracle) : Report × List GCall :=
  let intent := classifyIntent ora.intentReply
  let out := loopGo cfg ora query intent cfg.max_iterations 0 [] [GCall.classify]
  (synthesize out.evidence hist ora.synthReply out.iterations,
   out.trace ++ [GCall.synthesizeCall])

/-- Modelled from the spec: the error taxonomy visible to the caller of
`research` — only `ConfigurationError` may propagate (spec section 7). -/
inductive SessionError where
  | configurationError : SessionError
deriving DecidableEq

/-- Modelled from the spec: valid session configuration
(spec sections 4.6 and 6). -/
def ValidConfig (cfg : Config) : Prop :=
  1 ≤ cfg.max_iterations ∧ 0 ≤ cfg.sufficiency_threshold ∧
    cfg.sufficiency_threshold ≤ 1 ∧ 1 ≤ cfg.max_subqueries

instance (cfg : Config) : Decidable (ValidConfig cfg) := by
  unfold ValidConfig
  infer_instance

/-- Modelled from the spec: the sole entry point `research` (spec section 6)
— configuration is validated before anything else; an invalid configuration
fails fast with `ConfigurationError` and zero gateway calls; a valid one
runs the session.  The second component records every gateway call made. -/
def research (cfg : Config) (query : String) (hist : List (String × Report))
    (ora : Oracle) : Except SessionError Report × List GCall :=
  if ValidConfig cfg then
    ((Except.ok (runSession cfg query hist ora).1),
      (runSession cfg query hist ora).2)
  else (Except.error SessionError.configurationError, [])

/-- The number of cycles the decision rule of spec section 4.6 prescribes for
an evaluator whose clamped score at iteration `i` is `f i`: one cycle plus
one more for every further consecutive score below the threshold, capped at
`maxIt`. -/
def expectedCycles (θ : ℚ) (f : Nat → ℚ) (maxIt : Nat) : Nat :=
  min maxIt (((List.range maxIt).takeWhile (fun i => decide (f i < θ))).length + 1)

/-- The configuration of the spec's test scenarios A and B:
`max_iterations = 3`, `sufficiency_threshold = 0.7`. -/
def cfgScenario : Config := ⟨3, 7/10, 5⟩

/-- Scenario D configuration: `max_iterations = 0`. -/
def cfgZeroIterations : Config := ⟨0, 7/10, 5⟩

/-- A pathological gateway: malformed output on every call, every retrieval
failing. -/
def oracleAllMalformed : Oracle :=
  ⟨GReply.malformed, fun _ => GReply.malformed, fun _ _ => none,
    fun _ => GReply.malformed, GReply.malformed⟩

/-- Scenario B evaluator: always answers 1/10, below the 7/10 threshold. -/
def oracleLowScore : Oracle :=
  { oracleAllMalformed with evalReply := fun _ => GReply.ok (1/10) }

/-- Scenario A evaluator: 4/10 on the first iteration, 8/10 afterwards. -/
def oracleScenarioA : Oracle :=
  { oracleAllMalformed with
    evalReply := fun i => if i = 0 then GReply.ok (4/10) else GReply.ok (8/10) }

/-- The characters removed by ECMAScript string trimming: the WhiteSpace
production (tab, vertical tab, form feed, zero-width no-break space and
every Unicode Space_Separator character: space, no-break space, ogham
space mark, the en-quad..hair-space range, narrow no-break space, medium
mathematical space and ideographic space) together with the LineTerminator
production (line feed, carriage return, line separator, paragraph
separator). -/
def jsWhitespace (c : Char) : Bool :=
  c = ' ' || c = '\t' || c = '\n' || c = '\r' ||
    c = '\u000B' || c = '\u000C' || c = '\u00A0' || c = '\u1680' ||
    ('\u2000' ≤ c && c ≤ '\u200A') ||
    c = '\u2028' || c = '\u2029' || c = '\u202F' || c = '\u205F' ||
    c = '\u3000' || c = '\uFEFF'

/-- Embedded from the front-end: `query.trim()` — drop leading and trailing
whitespace. -/
def jsTrim (s : String) : String :=
  String.mk (((s.data.dropWhile jsWhitespace).reverse.dropWhile
    jsWhitespace).reverse)

/-- Embedded from `App.jsx`: one entry of the `conversations` state —
`id`, `query`, `report`, `timestamp`, `iterations`. -/
structure Conversation where
  id : Nat
  query : String
  report : String
  timestamp : String
  iterations : Nat
deriving DecidableEq

/-- Embedded from `App.jsx`: the component state — `documents`,
`conversations`, `isProcessing`, `systemStatus`. -/
structure AppState where
  documents : List String
  conversations : List Conversation
  isProcessing : Bool
  systemStatus : String
deriving DecidableEq

/-- Embedded from `App.jsx`: the payload of a successful
`POST /api/research` response — `report` and an optional `iterations`
field (the code reads `response.data.iterations || 0`). -/
structure ResearchResponse where
  report : String
  iterations : Option Nat
deriving DecidableEq

/-- Embedded from `App.jsx` `handleQuery`: a blank query (after trimming)
returns before the `/api/research` request is issued, leaving the
conversation list unchanged; on a successful response one new conversation
is prepended to the list; on a request error the list is unchanged and only
the status message is set.  The second component records whether the
`/api/research` request was issued.  `now` and `ts` stand for `Date.now()`
and the locale timestamp. -/
def handleQuery (st : AppState) (query : String)
    (api : Option ResearchResponse) (now : Nat) (ts : String) :
    AppState × Bool :=
  if jsTrim query = "" then
    ({ st with systemStatus := "请输入查询内容" }, false)
  else
    match api with
    | some resp =>
        ({ st with
            conversations :=
              ⟨now, query, resp.report, ts, resp.iterations.getD 0⟩ ::
                st.conversations,
            systemStatus := "研究完成",
            isProcessing := false }, true)
    | none =>
        ({ st with systemStatus := "研究失败", isProcessing := false }, true)

/-- Embedded from `QueryPanel.jsx` `handleSubmit`: `onQuery` is invoked, and
the text area cleared, only when the trimmed query is non-empty and no
request is in flight.  The result is the new text-area content together with
the query passed to `onQuery` (`none` when `onQuery` is not invoked). -/
def handleSubmit (query : String) (isProcessing : Bool) :
    String × Option String :=
  if jsTrim query ≠ "" ∧ isProcessing = false then ("", some query)
  else (query, none)

/-- The state cleared by a reset: the front-end state of `App.jsx` plus the
back-end session-scoped caches. -/
structure SystemState where
  app : AppState
  backendCaches : List (String × String)
deriving DecidableEq

/-- Embedded from `App.jsx` `handleReset`: on a successful `/api/reset` the
document list and the conversation list are emptied and the status message
set. -/
def handleResetApp (st : AppState) : AppState :=
  { st with documents := [], conversations := [], systemStatus := "系统已重置" }

/-- Modelled from the spec: the back-end `reset()` discards any
session-scoped caches the controller may hold (spec section 6); the
controller code is not part of the repository snapshot. -/
def backendReset (_caches : List (String × String)) :
    List (String × String) := []

/-- A completed reset of the whole system: front-end reset as embedded from
`App.jsx`, back-end cache discard as modelled from the spec. -/
def resetSystem (s : SystemState) : SystemState :=
  ⟨handleResetApp s.app, backendReset s.backendCaches⟩

/-- A JavaScript object modelled as an association list of string fields;
in an object literal later bindings override earlier ones, so lookup takes
the last binding of a key. -/
abbrev JsObj : Type := List (String × String)

/-- Field lookup on a modelled JavaScript object: the last binding wins. -/
def objGet (o : JsObj) (k : String) : Option String :=
  ((List.filter (fun p => p.1 = k) o).getLast?).map (fun p => p.2)

/-- Embedded from the demo server `PUT /api/memes/:id` handler in
`Meme.js` (demo section): the stored record is replaced by the object
literal spreading the old record, then the request body, then binding `_id`
to the id taken from the URL. -/
def updateMeme (m : JsObj) (id : String) (body : JsObj) : JsObj :=
  m ++ body ++ [("_id", id)]

/-- Embedded from the demo server: `findIndex` over `memesDB` on `_id`
followed by the in-place update — `none` when no record matches. -/
def putMemeGo : List JsObj → String → JsObj → Option (List JsObj)
  | [], _, _ => none
  | m :: rest, id, body =>
      if objGet m "_id" = some id then some (updateMeme m id body :: rest)
      else (putMemeGo rest id body).map (fun db => m :: db)

/-- Embedded from the demo server `PUT /api/memes/:id` route: on a match the
store is updated and status 200 returned with the updated record in place;
otherwise the store is unchanged and status 404 returned. -/
def putMeme (db : List JsObj) (id : String) (body : JsObj) :
    List JsObj × Nat :=
  match putMemeGo db id body with
  | none => (db, 404)
  | some db' => (db', 200)

theorem mergeOne_of_absent {s : List EvidenceItem} {x : EvidenceItem}
    (h : s.find? (fun e => key e = key x) = none) :
    mergeOne s x = s ++ [x] := by
  simp [mergeOne, h]

theorem mergeOne_of_lt {s : List EvidenceItem} {x inc : EvidenceItem}
    (h : s.find? (fun e => key e = key x) = some inc)
    (hlt : inc.relevance < x.relevance) :
    mergeOne s x = s.map (fun e => if key e = key x then x else e) := by
  simp [mergeOne, h, hlt]

theorem mergeOne_of_ge {s : List EvidenceItem} {x inc : EvidenceItem}
    (h : s.find? (fun e => key e = key x) = some inc)
    (hge : ¬ inc.relevance < x.relevance) :
    mergeOne s x = s := by
  simp [mergeOne, h, hge]

theorem length_le_mergeOne (s : List EvidenceItem) (x : EvidenceItem) :
    s.length ≤ (mergeOne s x).length := by
  cases h : s.find? (fun e => key e = key x) with
  | none => simp [mergeOne_of_absent h]
  | some inc =>
      by_cases hlt : inc.relevance < x.relevance
      · simp [mergeOne_of_lt h hlt]
      · simp [mergeOne_of_ge h hlt]

theorem keys_mergeOne_of_lt {s : List EvidenceItem} {x : EvidenceItem} :
    (s.map (fun e => if key e = key x then x else e)).map key = s.map key := by
  rw [List.map_map]
  refine List.map_congr_left ?_
  intro e _
  by_cases hk : key e = key x
  · simp [Function.comp, hk]
  · simp [Function.comp, hk]

theorem wf_mergeOne {s : List EvidenceItem} (x : EvidenceItem)
    (hs : WFEvidence s) : WFEvidence (mergeOne s x) := by
  cases h : s.find? (fun e => key e = key x) with
  | none =>
      rw [mergeOne_of_absent h]
      have habs : ∀ e ∈ s, key e ≠ key x := by
        intro e he
        have := List.find?_eq_none.mp h e he
        simpa using this
      unfold WFEvidence at hs ⊢
      rw [List.map_append]
      rw [List.nodup_append]
      refine ⟨hs, List.nodup_singleton _, ?_⟩
      intro k hk hk'
      simp only [List.map_cons, List.map_nil, List.mem_singleton] at hk'
      rcases List.mem_map.mp hk with ⟨e, he, rfl⟩
      exact habs e he hk'
  | some inc =>
      by_cases hlt : inc.relevance < x.relevance
      · rw [mergeOne_of_lt h hlt]
        unfold WFEvidence at hs ⊢
        rw [keys_mergeOne_of_lt]
        exact hs
      · rw [mergeOne_of_ge h hlt]
        exact hs

theorem key_unique {s : List EvidenceItem} (hs : WFEvidence s)
    {a b : EvidenceItem} (ha : a ∈ s) (hb : b ∈ s) (hk : key a = key b) :
    a = b :=
  List.inj_on_of_nodup_map hs ha hb hk

theorem find?_mem_key {s : List EvidenceItem} {x inc : EvidenceItem}
    (h : s.find? (fun e => key e = key x) = some inc) :
    inc ∈ s ∧ key inc = key x := by
  refine ⟨List.mem_of_find?_eq_some h, ?_⟩
  have := List.find?_some h
  simpa using this

theorem mergeOne_no_loss {s : List EvidenceItem} (x : EvidenceItem)
    (hs : WFEvidence s) :
    ∀ e ∈ s, ∃ e', e' ∈ mergeOne s x ∧ key e' = key e ∧
      e.relevance ≤ e'.relevance := by
  intro e he
  cases h : s.find? (fun e => key e = key x) with
  | none =>
      exact ⟨e, by simp [mergeOne_of_absent h, he], rfl, le_refl _⟩
  | some inc =>
      by_cases hlt : inc.relevance < x.relevance
      · rw [mergeOne_of_lt h hlt]
        obtain ⟨hincs, hinck⟩ := find?_mem_key h
        by_cases hk : key e = key x
        · have heinc : e = inc := key_unique hs he hincs (hk.trans hinck.symm)
          refine ⟨x, ?_, hk.symm, ?_⟩
          · exact List.mem_map.mpr ⟨e, he, by simp [hk]⟩
          · exact le_of_lt (heinc ▸ hlt)
        · exact ⟨e, List.mem_map.mpr ⟨e, he, by simp [hk]⟩, rfl, le_refl _⟩
      · exact ⟨e, by simp [mergeOne_of_ge h hlt, he], rfl, le_refl _⟩

theorem mergeOne_provenance {s : List EvidenceItem} {x e' : EvidenceItem}
    (he' : e' ∈ mergeOne s x) : e' ∈ s ∨ e' = x := by
  revert he'
  cases h : s.find? (fun e => key e = key x) with
  | none =>
      rw [mergeOne_of_absent h]
      intro he'
      rcases List.mem_append.mp he' with h1 | h1
      · exact Or.inl h1
      · exact Or.inr (by simpa using h1)
  | some inc =>
      by_cases hlt : inc.relevance < x.relevance
      · rw [mergeOne_of_lt h hlt]
        intro he'
        rcases List.mem_map.mp he' with ⟨e, he, rfl⟩
        by_cases hk : key e = key x
        · exact Or.inr (by simp [hk])
        · exact Or.inl (by simpa [hk] using he)
      · rw [mergeOne_of_ge h hlt]
        exact fun he' => Or.inl he'

theorem mergeOne_dominates_new {s : List EvidenceItem} (x : EvidenceItem) :
    ∃ e', e' ∈ mergeOne s x ∧ key e' = key x ∧
      x.relevance ≤ e'.relevance := by
  cases h : s.find? (fun e => key e = key x) with
  | none =>
      exact ⟨x, by simp [mergeOne_of_absent h], rfl, le_refl _⟩
  | some inc =>
      obtain ⟨hincs, hinck⟩ := find?_mem_key h
      by_cases hlt : inc.relevance < x.relevance
      · refine ⟨x, ?_, rfl, le_refl _⟩
        rw [mergeOne_of_lt h hlt]
        exact List.mem_map.mpr ⟨inc, hincs, by simp [hinck]⟩
      · exact ⟨inc, by simp [mergeOne_of_ge h hlt, hincs], hinck, le_of_not_lt hlt⟩

theorem merge_master (newItems : List EvidenceItem) :
    ∀ s : List EvidenceItem, WFEvidence s →
      WFEvidence (merge s newItems) ∧
      s.length ≤ (merge s newItems).length ∧
      (∀ e ∈ s, ∃ e', e' ∈ merge s newItems ∧ key e' = key e ∧
        e.relevance ≤ e'.relevance) ∧
      (∀ e' ∈ merge s newItems, e' ∈ s ∨ e' ∈ newItems) ∧
      (∀ e' ∈ merge s newItems, ∀ y, (y ∈ s ∨ y ∈ newItems) →
        key y = key e' → y.relevance ≤ e'.relevance) := by
  induction newItems with
  | nil =>
      intro s hs
      refine ⟨hs, le_refl _, ?_, ?_, ?_⟩
      · exact fun e he => ⟨e, he, rfl, le_refl _⟩
      · exact fun e' he' => Or.inl he'
      · intro e' he' y hy hk
        rcases hy with hy | hy
        · exact (key_unique hs hy he' hk) ▸ le_refl _
        · simp at hy
  | cons x rest ih =>
      intro s hs
      have hmerge : merge s (x :: rest) = merge (mergeOne s x) rest := rfl
      have hs' : WFEvidence (mergeOne s x) := wf_mergeOne x hs
      obtain ⟨ihwf, ihlen, ihloss, ihprov, ihdom⟩ := ih (mergeOne s x) hs'
      rw [hmerge]
      refine ⟨ihwf, le_trans (length_le_mergeOne s x) ihlen, ?_, ?_, ?_⟩
      · intro e he
        obtain ⟨e1, he1, hk1, hr1⟩ := mergeOne_no_loss x hs e he
        obtain ⟨e2, he2, hk2, hr2⟩ := ihloss e1 he1
        exact ⟨e2, he2, hk2.trans hk1, le_trans hr1 hr2⟩
      · intro e' he'
        rcases ihprov e' he' with h1 | h1
        · rcases mergeOne_provenance h1 with h2 | h2
          · exact Or.inl h2
          · exact Or.inr (by simp [h2])
        · exact Or.inr (by simp [h1])
      · intro e' he' y hy hk
        rcases hy with hy | hy
        · obtain ⟨e1, he1, hk1, hr1⟩ := mergeOne_no_loss x hs y hy
          have := ihdom e' he' e1 (Or.inl he1) (hk1.trans hk)
          exact le_trans hr1 this
        · rcases List.mem_cons.mp hy with rfl | hy
          · obtain ⟨e1, he1, hk1, hr1⟩ := mergeOne_dominates_new (s := s) y
            have := ihdom e' he' e1 (Or.inl he1) (hk1.trans hk)
            exact le_trans hr1 this
          · exact ihdom e' he' y (Or.inr hy) hk

/-- C4: within a session the evidence-set cardinality is non-decreasing under
merge (merge only inserts or replaces, never removes), no incumbent is ever
replaced by a duplicate of strictly lower relevance, and for any identity key
the retained item dominates every item seen with that key (incumbents and new
items alike) while itself being one of the seen items — hence its relevance is
the maximum seen for that key. -/
theorem merge_monotone_and_max (s newItems : List EvidenceItem)
    (hs : WFEvidence s) :
    s.length ≤ (merge s newItems).length ∧
    (∀ e ∈ s, ∃ e', e' ∈ merge s newItems ∧ key e' = key e ∧
      e.relevance ≤ e'.relevance) ∧
    (∀ e' ∈ merge s newItems,
      (e' ∈ s ∨ e' ∈ newItems) ∧
      ∀ y, (y ∈ s ∨ y ∈ newItems) → key y = key e' →
        y.relevance ≤ e'.relevance) := by
  obtain ⟨_, hlen, hloss, hprov, hdom⟩ := merge_master newItems s hs
  exact ⟨hlen, hloss, fun e' he' => ⟨hprov e' he', hdom e' he'⟩⟩

/-- Witness for C4 at a concrete evidence set and delta: one incumbent of
relevance 1/2, a duplicate of relevance 9/10 and a fresh item. -/
theorem merge_monotone_and_max_witness :
    ([EvidenceItem.mk "c1" "d1" (1/2) "chunk"].length ≤
      (merge [EvidenceItem.mk "c1" "d1" (1/2) "chunk"]
        [EvidenceItem.mk "c1" "d1" (9/10) "chunk",
         EvidenceItem.mk "c2" "d2" (1/4) "chunk"]).length) ∧
    (∀ e ∈ [EvidenceItem.mk "c1" "d1" (1/2) "chunk"],
      ∃ e', e' ∈ merge [EvidenceItem.mk "c1" "d1" (1/2) "chunk"]
        [EvidenceItem.mk "c1" "d1" (9/10) "chunk",
         EvidenceItem.mk "c2" "d2" (1/4) "chunk"] ∧ key e' = key e ∧
        e.relevance ≤ e'.relevance) ∧
    (∀ e' ∈ merge [EvidenceItem.mk "c1" "d1" (1/2) "chunk"]
        [EvidenceItem.mk "c1" "d1" (9/10) "chunk",
         EvidenceItem.mk "c2" "d2" (1/4) "chunk"],
      (e' ∈ [EvidenceItem.mk "c1" "d1" (1/2) "chunk"] ∨
       e' ∈ [EvidenceItem.mk "c1" "d1" (9/10) "chunk",
             EvidenceItem.mk "c2" "d2" (1/4) "chunk"]) ∧
      ∀ y, (y ∈ [EvidenceItem.mk "c1" "d1" (1/2) "chunk"] ∨
            y ∈ [EvidenceItem.mk "c1" "d1" (9/10) "chunk",
                 EvidenceItem.mk "c2" "d2" (1/4) "chunk"]) →
        key y = key e' → y.relevance ≤ e'.relevance) :=
  merge_monotone_and_max
    [EvidenceItem.mk "c1" "d1" (1/2) "chunk"]
    [EvidenceItem.mk "c1" "d1" (9/10) "chunk",
     EvidenceItem.mk "c2" "d2" (1/4) "chunk"]
    (by simp [WFEvidence])

theorem find?_map_replace {s : List EvidenceItem} {x inc : EvidenceItem}
    (h : s.find? (fun e => key e = key x) = some inc) :
    (s.map (fun e => if key e = key x then x else e)).find?
      (fun e => key e = key x) = some x := by
  induction s with
  | nil => simp at h
  | cons a t iht =>
      by_cases hk : key a = key x
      · simp [hk]
      · have h' : t.find? (fun e => key e = key x) = some inc := by
          simpa [List.find?_cons, hk] using h
        simpa [List.find?_cons, hk] using iht h'

theorem mergeOne_idem (s : List EvidenceItem) (x : EvidenceItem) :
    mergeOne (mergeOne s x) x = mergeOne s x := by
  cases h : s.find? (fun e => key e = key x) with
  | none =>
      rw [mergeOne_of_absent h]
      have hfind : (s ++ [x]).find? (fun e => key e = key x) = some x := by
        rw [List.find?_append, h]
        simp
      exact mergeOne_of_ge hfind (lt_irrefl _)
  | some inc =>
      by_cases hlt : inc.relevance < x.relevance
      · rw [mergeOne_of_lt h hlt]
        exact mergeOne_of_ge (find?_map_replace h) (lt_irrefl _)
      · rw [mergeOne_of_ge h hlt]
        exact mergeOne_of_ge h hlt

/-- C5: `EvidenceRefiner.merge` is idempotent over items — merging the same
evidence item twice yields the same evidence set as merging it once, for every
evidence set, because the merge step inserts when the identity key is absent,
replaces only when the incumbent has strictly lower relevance, and discards
the new item when the incumbent's relevance is equal or higher. -/
theorem merge_idempotent (s : List EvidenceItem) (x : EvidenceItem) :
    merge (merge s [x]) [x] = merge s [x] :=
  mergeOne_idem s x

theorem loopGo_iterations (cfg : Config) (ora : Oracle) (query : String)
    (intent : Intent) :
    ∀ fuel it ev tr, it + fuel = cfg.max_iterations → 1 ≤ fuel →
      (loopGo cfg ora query intent fuel it ev tr).iterations =
        it + min fuel
          (((List.range fuel).takeWhile
            (fun j => decide (clampScore (ora.evalReply (it + j)) <
              cfg.sufficiency_threshold))).length + 1) := by
  intro fuel
  induction fuel with
  | zero =>
      intro it ev tr _ h1
      exact absurd h1 (by omega)
  | succ g ihg =>
      intro it ev tr hsum _
      by_cases hc : clampScore (ora.evalReply it) < cfg.sufficiency_threshold
      · rcases Nat.eq_zero_or_pos g with hg | hg
        · subst hg
          have hstop : ¬ (clampScore (ora.evalReply it) < cfg.sufficiency_threshold ∧
              it + 1 < cfg.max_iterations) := by
            rintro ⟨_, hlt⟩
            omega
          simp only [loopGo, if_neg hstop]
          have hmin : min 1 (((List.range 1).takeWhile
              (fun j => decide (clampScore (ora.evalReply (it + j)) <
                cfg.sufficiency_threshold))).length + 1) = 1 :=
            Nat.min_eq_left (by omega)
          rw [hmin]
        · have hgo : clampScore (ora.evalReply it) < cfg.sufficiency_threshold ∧
              it + 1 < cfg.max_iterations := ⟨hc, by omega⟩
          simp only [loopGo, if_pos hgo]
          rw [ihg (it + 1) _ _ (by omega) (by omega)]
          rw [List.range_succ_eq_map, List.takeWhile_cons]
          simp only [Nat.add_zero, decide_eq_true_eq]
          rw [if_pos hc, List.takeWhile_map]
          simp only [List.length_cons, List.length_map]
          have hcomp : ((fun j => decide (clampScore (ora.evalReply (it + j)) <
                cfg.sufficiency_threshold)) ∘ Nat.succ) =
              (fun j => decide (clampScore (ora.evalReply (it + 1 + j)) <
                cfg.sufficiency_threshold)) := by
            funext j
            have hj : it + Nat.succ j = it + 1 + j := by omega
            simp [Function.comp, hj]
          rw [hcomp]
          have hmin : (g + 1) ⊓
              (((List.range g).takeWhile
                (fun j => decide (clampScore (ora.evalReply (it + 1 + j)) <
                  cfg.sufficiency_threshold))).length + 1 + 1) =
              g ⊓ (((List.range g).takeWhile
                (fun j => decide (clampScore (ora.evalReply (it + 1 + j)) <
                  cfg.sufficiency_threshold))).length + 1) + 1 :=
            Nat.succ_min_succ g _
          rw [hmin]
          omega
      · have hstop : ¬ (clampScore (ora.evalReply it) < cfg.sufficiency_threshold ∧
            it + 1 < cfg.max_iterations) := by
          rintro ⟨h1, _⟩
          exact hc h1
        simp only [loopGo, if_neg hstop]
        rw [List.range_succ_eq_map, List.takeWhile_cons]
        simp only [Nat.add_zero, decide_eq_true_eq]
        rw [if_neg hc]
        simp only [List.length_nil, Nat.zero_add]
        rw [Nat.min_eq_right (by omega)]

theorem synthesize_iterations (ev : List EvidenceItem)
    (hist : List (String × Report)) (r : GReply String) (iters : Nat) :
    (synthesize ev hist r iters).iterations = iters := by
  cases r with
  | ok t => by_cases h : t = "" <;> simp [synthesize, h]
  | transportFailed => rfl
  | malformed => rfl

theorem runSession_iterations (cfg : Config) (q : String)
    (hist : List (String × Report)) (ora : Oracle)
    (h : 1 ≤ cfg.max_iterations) :
    (runSession cfg q hist ora).1.iterations =
      expectedCycles cfg.sufficiency_threshold
        (fun i => clampScore (ora.evalReply i)) cfg.max_iterations := by
  unfold runSession expectedCycles
  simp only [synthesize_iterations]
  rw [loopGo_iterations cfg ora q _ cfg.max_iterations 0 [] [GCall.classify]
    (by omega) h]
  simp only [Nat.zero_add]

theorem expectedCycles_le (θ : ℚ) (f : Nat → ℚ) (maxIt : Nat) :
    expectedCycles θ f maxIt ≤ maxIt :=
  Nat.min_le_left _ _

theorem expectedCycles_all_lt (θ : ℚ) (f : Nat → ℚ) (maxIt : Nat)
    (h : ∀ i, f i < θ) : expectedCycles θ f maxIt = maxIt := by
  unfold expectedCycles
  have htw : (List.range maxIt).takeWhile (fun i => decide (f i < θ)) =
      List.range maxIt := by
    rw [List.takeWhile_eq_self_iff]
    intro x _
    simp [h x]
  rw [htw, List.length_range]
  omega

/-- C1: for every session configuration with `max_iterations = N` (N ≥ 1) and
every gateway, retriever and evaluator behaviour — including an evaluator
that always comes back malformed or always reports 0 — the session executes
at most N full PLANNING→RETRIEVING→REFINING→EVALUATING cycles before
synthesizing, and with an evaluator whose clamped score is always strictly
below the threshold it executes exactly N cycles and then synthesizes. -/
theorem session_within_iteration_budget (cfg : Config) (q : String)
    (hist : List (String × Report)) (ora : Oracle)
    (h : 1 ≤ cfg.max_iterations) :
    (runSession cfg q hist ora).1.iterations ≤ cfg.max_iterations ∧
    ((∀ i, clampScore (ora.evalReply i) < cfg.sufficiency_threshold) →
      (runSession cfg q hist ora).1.iterations = cfg.max_iterations) := by
  constructor
  · rw [runSession_iterations cfg q hist ora h]
    exact expectedCycles_le _ _ _
  · intro hall
    rw [runSession_iterations cfg q hist ora h]
    exact expectedCycles_all_lt _ _ _ hall

/-- Witness for C1, spec Scenario B: `max_iterations = 3`, threshold 7/10,
evaluator always answering 1/10 — the session runs exactly 3 cycles. -/
theorem session_within_iteration_budget_witness :
    (runSession cfgScenario "What are the main findings?" []
      oracleLowScore).1.iterations = 3 :=
  (session_within_iteration_budget cfgScenario "What are the main findings?"
    [] oracleLowScore (by norm_num [cfgScenario])).2
    (fun i => by norm_num [oracleLowScore, oracleAllMalformed, clampScore,
      cfgScenario])

/-- C3: the controller continues to another PLANNING stage after EVALUATING
iff the sufficiency score is strictly below the threshold and the iteration
counter is strictly below `max_iterations`; globally, the number of executed
cycles equals one plus the length of the maximal prefix of below-threshold
scores, capped at `max_iterations`, and depends on nothing but the scores. -/
theorem session_follows_decision_rule (cfg : Config) (q : String)
    (hist : List (String × Report)) (ora : Oracle)
    (h : 1 ≤ cfg.max_iterations) :
    (runSession cfg q hist ora).1.iterations =
      expectedCycles cfg.sufficiency_threshold
        (fun i => clampScore (ora.evalReply i)) cfg.max_iterations :=
  runSession_iterations cfg q hist ora h

/-- Witness for C3, spec Scenario A: `max_iterations = 3`, threshold 7/10,
first-iteration score 4/10, second-iteration score 8/10 — the session runs
exactly 2 cycles and then synthesizes. -/
theorem session_follows_decision_rule_witness :
    (runSession cfgScenario "What are the main findings?" []
      oracleScenarioA).1.iterations = 2 := by
  rw [session_follows_decision_rule cfgScenario "What are the main findings?"
    [] oracleScenarioA (by norm_num [cfgScenario])]
  have h3 : List.range 3 = [0, 1, 2] := rfl
  norm_num [expectedCycles, cfgScenario, h3, List.takeWhile_cons,
    oracleScenarioA, oracleAllMalformed, clampScore]

/-- C2: for every valid configuration, every query and every gateway and
retriever behaviour — transport failures after retries, malformed output on
every call, partial or total retrieval failure — `research` returns an
`Except.ok` report (possibly degraded) whose iteration count respects the
budget; model-side failures never surface as an error to the caller. -/
theorem research_always_returns_report (cfg : Config) (h : ValidConfig cfg)
    (q : String) (hist : List (String × Report)) (ora : Oracle) :
    ∃ rep, (research cfg q hist ora).1 = Except.ok rep ∧
      rep.iterations ≤ cfg.max_iterations := by
  refine ⟨(runSession cfg q hist ora).1, ?_, ?_⟩
  · unfold research
    rw [if_pos h]
  · rw [runSession_iterations cfg q hist ora h.1]
    exact expectedCycles_le _ _ _

/-- Witness for C2: a gateway that returns malformed output on every call and
a retriever that always fails still yield an `ok` report within budget. -/
theorem research_always_returns_report_witness :
    ∃ rep, (research cfgScenario "What are the main findings?" []
        oracleAllMalformed).1 = Except.ok rep ∧
      rep.iterations ≤ cfgScenario.max_iterations :=
  research_always_returns_report cfgScenario
    (by norm_num [ValidConfig, cfgScenario])
    "What are the main findings?" [] oracleAllMalformed

/-- C6: session construction validates configuration and fails fast — for
`max_iterations < 1` or a sufficiency threshold outside [0,1], `research`
returns `ConfigurationError` with an empty gateway-call trace (no gateway
call is made); for a valid configuration the session runs and returns a
report.  Configuration is a value fixed at construction, so it is never
re-validated or changed mid-loop. -/
theorem research_fails_fast_on_invalid_config (cfg : Config) (q : String)
    (hist : List (String × Report)) (ora : Oracle) :
    ((cfg.max_iterations < 1 ∨ cfg.sufficiency_threshold < 0 ∨
        1 < cfg.sufficiency_threshold) →
      research cfg q hist ora =
        (Except.error SessionError.configurationError, [])) ∧
    (ValidConfig cfg →
      ∃ rep tr, research cfg q hist ora = (Except.ok rep, tr)) := by
  constructor
  · intro hbad
    unfold research
    rw [if_neg]
    intro hv
    obtain ⟨h1, h2, h3, _⟩ := hv
    rcases hbad with hb | hb | hb
    · omega
    · exact absurd h2 (not_le.mpr hb)
    · exact absurd h3 (not_le.mpr hb)
  · intro hv
    refine ⟨(runSession cfg q hist ora).1, (runSession cfg q hist ora).2, ?_⟩
    unfold research
    rw [if_pos hv]

/-- Witness for C6, spec Scenario D: `max_iterations = 0` at construction
raises `ConfigurationError` immediately and the gateway-call trace is empty. -/
theorem research_fails_fast_witness :
    research cfgZeroIterations "q" [] oracleAllMalformed =
      (Except.error SessionError.configurationError, []) :=
  (research_fails_fast_on_invalid_config cfgZeroIterations "q" []
    oracleAllMalformed).1 (Or.inl (by norm_num [cfgZeroIterations]))

theorem jsTrim_eq_empty {q : String} (h : q.data.all jsWhitespace = true) :
    jsTrim q = "" := by
  unfold jsTrim
  have h1 : q.data.dropWhile jsWhitespace = [] := by
    rw [List.dropWhile_eq_nil_iff]
    intro c hc
    exact List.all_eq_true.mp h c hc
  rw [h1]
  rfl

/-- C7: conversation memory is append-only and owned by the caller — after a
completed research call the conversation list is exactly one new pair, built
from the completed call, prepended to the previous list; every prior pair is
still present, unmodified and in order. -/
theorem conversation_append_only (st : AppState) (q : String)
    (resp : ResearchResponse) (now : Nat) (ts : String)
    (h : jsTrim q ≠ "") :
    (handleQuery st q (some resp) now ts).1.conversations =
      ⟨now, q, resp.report, ts, resp.iterations.getD 0⟩ ::
        st.conversations := by
  unfold handleQuery
  rw [if_neg h]

/-- Witness for C7: a concrete completed call prepends exactly one new
conversation and keeps the old one unchanged. -/
theorem conversation_append_only_witness :
    (handleQuery ⟨[], [⟨1, "old", "r0", "t0", 1⟩], false, ""⟩ "new question"
      (some ⟨"r1", some 2⟩) 5 "t1").1.conversations =
      ⟨5, "new question", "r1", "t1", 2⟩ :: [⟨1, "old", "r0", "t0", 1⟩] :=
  conversation_append_only ⟨[], [⟨1, "old", "r0", "t0", 1⟩], false, ""⟩
    "new question" ⟨"r1", some 2⟩ 5 "t1" (by decide)

/-- C8: reset is idempotent — a completed reset empties the document list,
the conversation history and the back-end session caches, and performing it
twice in succession yields the same state as performing it once. -/
theorem reset_idempotent (s : SystemState) :
    resetSystem (resetSystem s) = resetSystem s := rfl

/-- C9: a blank submission — empty or all-whitespace input — issues no
research request at the public interface: `handleSubmit` does not invoke
`onQuery`, and `handleQuery` returns before calling `/api/research`, leaving
the conversation list unchanged. -/
theorem blank_query_no_request (q : String)
    (h : q.data.all jsWhitespace = true) (isProc : Bool) (st : AppState)
    (api : Option ResearchResponse) (now : Nat) (ts : String) :
    handleSubmit q isProc = (q, none) ∧
    (handleQuery st q api now ts).1.conversations = st.conversations ∧
    (handleQuery st q api now ts).2 = false := by
  have ht : jsTrim q = "" := jsTrim_eq_empty h
  refine ⟨?_, ?_, ?_⟩
  · unfold handleSubmit
    rw [if_neg]
    rintro ⟨h1, _⟩
    exact h1 ht
  · unfold handleQuery
    rw [if_pos ht]
  · unfold handleQuery
    rw [if_pos ht]

/-- Witness for C9: submitting a query made of ideographic spaces (the
blank a CJK input method produces) and an ordinary space invokes nothing and
changes no conversation state. -/
theorem blank_query_no_request_witness :
    handleSubmit "\u3000\u3000 " false = ("\u3000\u3000 ", none) ∧
    (handleQuery ⟨[], [], false, ""⟩ "\u3000\u3000 " none 0 "t").1.conversations =
      (⟨[], [], false, ""⟩ : AppState).conversations ∧
    (handleQuery ⟨[], [], false, ""⟩ "\u3000\u3000 " none 0 "t").2 = false :=
  blank_query_no_request "\u3000\u3000 " (by decide) false ⟨[], [], false, ""⟩
    none 0 "t"

theorem objGet_updateMeme_id (m : JsObj) (id : String) (body : JsObj) :
    objGet (updateMeme m id body) "_id" = some id := by
  unfold objGet updateMeme
  rw [List.filter_append, List.filter_append, List.getLast?_append,
    List.getLast?_append]
  simp

theorem objGet_updateMeme_frame (m : JsObj) (id : String) (body : JsObj)
    (k : String) (hk : k ≠ "_id") (hb : objGet body k = none) :
    objGet (updateMeme m id body) k = objGet m k := by
  have hb' : (List.filter (fun p => p.1 = k) body).getLast? = none := by
    unfold objGet at hb
    exact Option.map_eq_none'.mp hb
  unfold objGet updateMeme
  rw [List.filter_append, List.filter_append, List.getLast?_append,
    List.getLast?_append, hb']
  have hid : ("_id" : String) ≠ k := fun he => hk he.symm
  simp [hid]

theorem putMemeGo_not_found {id : String} {body : JsObj} :
    ∀ db : List JsObj, (∀ m ∈ db, objGet m "_id" ≠ some id) →
      putMemeGo db id body = none := by
  intro db
  induction db with
  | nil => intro _; rfl
  | cons m rest ih =>
      intro h
      unfold putMemeGo
      rw [if_neg (h m (by simp))]
      rw [ih (fun m' hm' => h m' (by simp [hm']))]
      rfl

theorem putMemeGo_found {id : String} {body : JsObj} :
    ∀ db db' : List JsObj, putMemeGo db id body = some db' →
      ∃ (i : Nat) (m : JsObj), db[i]? = some m ∧ objGet m "_id" = some id ∧
        db'[i]? = some (updateMeme m id body) ∧
        ∀ j : Nat, j ≠ i → db'[j]? = db[j]? := by
  intro db
  induction db with
  | nil =>
      intro db' h
      simp [putMemeGo] at h
  | cons m rest ih =>
      intro db' h
      by_cases hm : objGet m "_id" = some id
      · rw [putMemeGo, if_pos hm] at h
        obtain rfl : updateMeme m id body :: rest = db' := by
          simpa using h
        refine ⟨0, m, by simp, hm, by simp, ?_⟩
        intro j hj
        obtain ⟨j', rfl⟩ := Nat.exists_eq_succ_of_ne_zero hj
        simp
      · rw [putMemeGo, if_neg hm] at h
        obtain ⟨db'', hgo, rfl⟩ := Option.map_eq_some'.mp h
        obtain ⟨i, m0, h1, h2, h3, h4⟩ := ih db'' hgo
        refine ⟨i + 1, m0, by simpa using h1, h2, by simpa using h3, ?_⟩
        intro j hj
        cases j with
        | zero => simp
        | succ j' =>
            have : j' ≠ i := fun he => hj (by rw [he])
            simpa using h4 j' this

/-- C10: for every `PUT /api/memes/:id` request in the demo meme server, if
the target id exists then the first matching record is replaced in place,
its `_id` after the update equals the id in the URL even when the request
body carries a different `_id`, every stored field absent from the body
keeps its previous value, and all other records are untouched; if the id
does not exist the store is unchanged and 404 is returned. -/
theorem put_meme_correct (db : List JsObj) (id : String) (body : JsObj) :
    ((∀ m ∈ db, objGet m "_id" ≠ some id) →
      putMeme db id body = (db, 404)) ∧
    (∀ db', putMeme db id body = (db', 200) →
      ∃ (i : Nat) (m : JsObj), db[i]? = some m ∧ objGet m "_id" = some id ∧
        db'[i]? = some (updateMeme m id body) ∧
        objGet (updateMeme m id body) "_id" = some id ∧
        (∀ k, k ≠ "_id" → objGet body k = none →
          objGet (updateMeme m id body) k = objGet m k) ∧
        ∀ j : Nat, j ≠ i → db'[j]? = db[j]?) := by
  constructor
  · intro h
    unfold putMeme
    rw [putMemeGo_not_found db h]
  · intro db' h
    cases hgo : putMemeGo db id body with
    | none =>
        unfold putMeme at h
        rw [hgo] at h
        exact absurd (congrArg Prod.snd h) (by simp)
    | some db'' =>
        unfold putMeme at h
        rw [hgo] at h
        obtain rfl : db'' = db' := congrArg Prod.fst h
        obtain ⟨i, m, h1, h2, h3, h4⟩ := putMemeGo_found db db'' hgo
        exact ⟨i, m, h1, h2, h3, objGet_updateMeme_id m id body,
          fun k hk hb => objGet_updateMeme_frame m id body k hk hb, h4⟩

/-- Witness for C10: a store with one record; a body that tries to overwrite
`_id` cannot, `title` is updated, `topText` is kept; a missing id leaves the
store unchanged with 404. -/
theorem put_meme_correct_witness :
    putMeme [[("_id", "meme_1"), ("title", "A"), ("topText", "hi")]]
      "missing" [("_id", "evil"), ("title", "B")] =
      ([[("_id", "meme_1"), ("title", "A"), ("topText", "hi")]], 404) ∧
    (∃ (i : Nat) (m : JsObj),
      [[("_id", "meme_1"), ("title", "A"), ("topText", "hi")]][i]? = some m ∧
      objGet m "_id" = some "meme_1" ∧
      [updateMeme [("_id", "meme_1"), ("title", "A"), ("topText", "hi")]
        "meme_1" [("_id", "evil"), ("title", "B")]][i]? =
        some (updateMeme m "meme_1" [("_id", "evil"), ("title", "B")]) ∧
      objGet (updateMeme m "meme_1" [("_id", "evil"), ("title", "B")])
        "_id" = some "meme_1" ∧
      (∀ k, k ≠ "_id" →
        objGet [("_id", "evil"), ("title", "B")] k = none →
        objGet (updateMeme m "meme_1" [("_id", "evil"), ("title", "B")]) k =
          objGet m k) ∧
      ∀ j : Nat, j ≠ i →
        [updateMeme [("_id", "meme_1"), ("title", "A"), ("topText", "hi")]
          "meme_1" [("_id", "evil"), ("title", "B")]][j]? =
        [[("_id", "meme_1"), ("title", "A"), ("topText", "hi")]][j]?) :=
  ⟨(put_meme_correct [[("_id", "meme_1"), ("title", "A"), ("topText", "hi")]]
      "missing" [("_id", "evil"), ("title", "B")]).1 (by decide),
   (put_meme_correct [[("_id", "meme_1"), ("title", "A"), ("topText", "hi")]]
      "meme_1" [("_id", "evil"), ("title", "B")]).2
    [updateMeme [("_id", "meme_1"), ("title", "A"), ("topText", "hi")]
      "meme_1" [("_id", "evil"), ("title", "B")]] (by rfl)⟩

end DocResearcher
